import Mathlib

/-!
Verification development for the CVE ingestion and synchronization engine
(`app.py`): a Flask application that walks the paginated NVD 2.0 feed,
normalizes record fields, deduplicates within a run, and upserts records
into a Mongo collection.  The definitions below are a shallow embedding of
the ingestion code: `clean_date`, `fetch_and_store_cves`,
`get_last_modified_date`, `schedule_cve_sync` and the `/fetch_cves` route.
Network responses are modelled as a function from the fetch ordinal (how
many `requests.get` calls the run has already made) to an outcome, and the
Mongo collection as a list of documents.  Raised Python exceptions are
modelled with `Except String`.
-/

/-- A JSON scalar as the Python code sees it after `response.json()`:
`vnull` is Python `None`, `vstr` a `str`, and `vother` any other JSON value
(number, bool, array, object) — enough granularity for the fields the
engine touches. -/
inductive PyVal where
  | vnull
  | vstr (s : String)
  | vother
deriving DecidableEq

/-- The ASCII whitespace characters `str.strip()` removes. -/
def isPySpace (c : Char) : Bool :=
  c = ' ' ∨ c = '\t' ∨ c = '\n' ∨ c = '\r' ∨ c = '\x0b' ∨ c = '\x0c'

/-- Remove leading and trailing whitespace from a character list. -/
def stripChars (cs : List Char) : List Char :=
  (((cs.dropWhile isPySpace).reverse).dropWhile isPySpace).reverse

/-- `str.strip()` on a string value. -/
def pyStripStr (s : String) : String := ⟨stripChars s.data⟩

/-- `str.strip()` as applied to the result of a `dict.get` call: succeeds
(trimming surrounding whitespace) only on a string; on `None` or any other
JSON value it raises `AttributeError`, which nothing in `app.py` catches. -/
def pyStrip : PyVal → Except String String
  | .vstr s => .ok (pyStripStr s)
  | .vnull => .error "AttributeError: NoneType has no attribute strip"
  | .vother => .error "AttributeError: value has no attribute strip"

/-- Digits of a decimal numeral to its value. -/
def digitsToNat (cs : List Char) : Nat :=
  cs.foldl (fun a c => a * 10 + (c.toNat - '0'.toNat)) 0

/-- One numeric field of the `strptime` pattern: the maximal ASCII digit
run at the head of the input must have length 1 or 2 and its value must
satisfy the regex-derived bound for that length (CPython's `_strptime`
patterns, e.g. `%m` is `1[0-2]|0[1-9]|[1-9]`). -/
def numField (oneOk twoOk : Nat → Bool) (cs : List Char) :
    Option (Nat × List Char) :=
  let ds := cs.takeWhile Char.isDigit
  let r := cs.dropWhile Char.isDigit
  let v := digitsToNat ds
  if ds.length = 1 then (if oneOk v then some (v, r) else none)
  else if ds.length = 2 then (if twoOk v then some (v, r) else none)
  else none

/-- Consume one literal character (the `strptime` regex is compiled with
IGNORECASE, so the literal `T` also matches `t`). -/
def litChar (c : Char) : List Char → Option (List Char)
  | x :: r => if x = c ∨ x = c.toLower then some r else none
  | [] => none

/-- Gregorian leap year, as `datetime` uses. -/
def isLeap (y : Nat) : Bool := y % 4 = 0 && (y % 100 ≠ 0 || y % 400 = 0)

/-- Days in a month, as `datetime` validates them. -/
def daysInMonth (y m : Nat) : Nat :=
  if m = 2 then (if isLeap y then 29 else 28)
  else if m = 4 || m = 6 || m = 9 || m = 11 then 30 else 31

/-- `datetime.strptime(s, "%Y-%m-%dT%H:%M:%S.%f")` on an ASCII string:
`some (y, m, d)` when the whole string matches the pattern and the field
values form a valid `datetime` (year ≥ 1, valid day-of-month, second ≤ 59);
`none` when `strptime` (or the `datetime` constructor) raises `ValueError`.
Only the date triple is kept because the caller immediately applies
`.date()`.  Field bounds follow CPython's `_strptime` regexes: `%Y` exactly
four digits, `%m` 1–12, `%d` 1–31, `%H` ≤ 23, `%M` ≤ 59, `%S` ≤ 61 at the
regex (values 60 and 61 are then rejected by the `datetime` constructor),
`%f` one to six digits ending the string. -/
def parseUpstreamTs (s : String) : Option (Nat × Nat × Nat) :=
  let cs := s.data
  let yds := cs.takeWhile Char.isDigit
  let r0 := cs.dropWhile Char.isDigit
  if yds.length ≠ 4 then none else
  let y := digitsToNat yds
  match litChar '-' r0 with
  | none => none
  | some r1 =>
  match numField (fun v => 1 ≤ v) (fun v => 1 ≤ v && v ≤ 12) r1 with
  | none => none
  | some (mo, r2) =>
  match litChar '-' r2 with
  | none => none
  | some r3 =>
  match numField (fun v => 1 ≤ v) (fun v => 1 ≤ v && v ≤ 31) r3 with
  | none => none
  | some (d, r4) =>
  match litChar 'T' r4 with
  | none => none
  | some r5 =>
  match numField (fun _ => true) (fun v => v ≤ 23) r5 with
  | none => none
  | some (_, r6) =>
  match litChar ':' r6 with
  | none => none
  | some r7 =>
  match numField (fun _ => true) (fun v => v ≤ 59) r7 with
  | none => none
  | some (_, r8) =>
  match litChar ':' r8 with
  | none => none
  | some r9 =>
  match numField (fun _ => true) (fun v => v ≤ 61) r9 with
  | none => none
  | some (sec, r10) =>
  match litChar '.' r10 with
  | none => none
  | some r11 =>
  if r11.all Char.isDigit && 1 ≤ r11.length && r11.length ≤ 6 then
    -- `datetime(...)` validation: year ≥ 1, day within month, second ≤ 59
    if 1 ≤ y && d ≤ daysInMonth y mo && sec ≤ 59 then some (y, mo, d)
    else none
  else none

/-- Left-pad a numeral to two digits, as `date.isoformat` renders months
and days. -/
def pad2 (n : Nat) : String := if n < 10 then "0" ++ toString n else toString n

/-- Left-pad a numeral to four digits, as `date.isoformat` renders years. -/
def pad4 (n : Nat) : String :=
  if n < 10 then "000" ++ toString n
  else if n < 100 then "00" ++ toString n
  else if n < 1000 then "0" ++ toString n
  else toString n

/-- `datetime.strptime(...).date().isoformat()`: the date-only projection
of a parsed timestamp. -/
def isoDate : Nat × Nat × Nat → String
  | (y, m, d) => pad4 y ++ "-" ++ pad2 m ++ "-" ++ pad2 d

/-- `clean_date` from `app.py`: on a falsy value (`None`, the empty
string, or any other falsy object) return `"Unknown"`; on a non-empty
string, `strptime` with the single expected format, returning the
date-only ISO form on success and `"Unknown"` on `ValueError`; on any
other (truthy non-string) value, the raised `TypeError` is caught and
`"Unknown"` returned.  The failure is printed, never thrown, so the
function is total. -/
def clean_date : PyVal → String
  | .vnull => "Unknown"
  | .vstr s =>
      if s = "" then "Unknown"
      else match parseUpstreamTs s with
        | some ymd => isoDate ymd
        | none => "Unknown"
  | .vother => "Unknown"


/-- The maximum page size the code requests (`RESULTS_PER_PAGE = 200`). -/
def RESULTS_PER_PAGE : Nat := 200

/-- The nested record under the `"cve"` key of one feed item; each field
is `none` when the key is absent, and otherwise holds the JSON value
stored there (which need not be a string). -/
structure CveData where
  id : Option PyVal
  sourceIdentifier : Option PyVal
  published : Option PyVal
  lastModified : Option PyVal
  vulnStatus : Option PyVal
deriving DecidableEq

/-- One wrapper object of the `"vulnerabilities"` array;
`item.get("cve", {})` yields an empty dict when the key is absent. -/
structure Item where
  cve : Option CveData
deriving DecidableEq

/-- The empty dict default of `item.get("cve", {})`. -/
def emptyCveData : CveData := ⟨none, none, none, none, none⟩

/-- `item.get("cve", {})`. -/
def itemCve (it : Item) : CveData := it.cve.getD emptyCveData

/-- A parsed response body: `data.get("totalResults", 0)` and the presence
check `"vulnerabilities" in data`. -/
structure PageBody where
  totalResults : Option Nat
  vulnerabilities : Option (List Item)
deriving DecidableEq

/-- Outcome of one `requests.get` call: `exn` when the call itself raises,
otherwise a status code and a body, where a `none` body means
`response.json()` would raise on it (malformed body).  A sync run is
driven by a function from the fetch ordinal (number of `requests.get`
calls already made in the run) to an outcome; the code sends identical
query parameters on every fetch of a run, so the ordinal is the only
varying input. -/
inductive FetchOutcome where
  | exn
  | resp (status : Nat) (body : Option PageBody)
deriving DecidableEq

/-- The query-parameter dict handed to `requests.get`. -/
structure Request where
  startIndex : Nat
  resultsPerPage : Nat
  modifiedSince : Option String
deriving DecidableEq

/-- Python truthiness of the `last_modified_date` argument
(`if last_modified_date:`): `None` and the empty string are falsy. -/
def truthy : Option String → Bool
  | none => false
  | some s => s ≠ ""

/-- The `params` dict as built once, before the loop, in
`fetch_and_store_cves`: `startIndex` is the value of `start_index` at
build time (always 0) and `modifiedSince` is added only when the argument
is truthy.  The dict is never updated afterwards. -/
def mkParams (last_modified_date : Option String) : Request :=
  { startIndex := 0, resultsPerPage := RESULTS_PER_PAGE,
    modifiedSince := if truthy last_modified_date then last_modified_date else none }

/-- The canonical document written to the collection (the `clean_data`
dict). -/
structure Record where
  cve_id : String
  source_identifier : String
  published : String
  last_modified : String
  status : String
deriving DecidableEq

/-- `item.get("cve", {}).get("id", "").strip()`. -/
def itemId (it : Item) : Except String String :=
  pyStrip ((itemCve it).id.getD (.vstr ""))

/-- Does an item carry (without raising) the stripped id `k`?  Used to
state first-occurrence properties. -/
def itemHasId (k : String) (it : Item) : Bool :=
  match itemId it with
  | .ok s => s = k
  | .error _ => false

/-- Field extraction and cleansing for one non-skipped item, lines 70–81
of `app.py`: `sourceIdentifier` and `vulnStatus` are fetched with a string
default and stripped (raising on a stored non-string value), while
`published` and `lastModified` go through `clean_date`. -/
def normalizeCve (cve_data : CveData) (cve_id : String) : Except String Record := do
  let source_identifier ← pyStrip (cve_data.sourceIdentifier.getD (.vstr "Unknown"))
  let published := clean_date (cve_data.published.getD (.vstr "Unknown"))
  let last_modified := clean_date (cve_data.lastModified.getD (.vstr "Unknown"))
  let status ← pyStrip (cve_data.vulnStatus.getD (.vstr "Unknown"))
  .ok ⟨cve_id, source_identifier, published, last_modified, status⟩

/-- The per-item loop of `fetch_and_store_cves` over a list of items:
threads the run-scoped `seen_cve_ids` set (as a list) and produces the
batch of `UpdateOne` records appended to `bulk_updates`, in order.  Items
whose stripped id is empty or already seen are skipped; a raised
exception (a non-string id, `sourceIdentifier` or `vulnStatus`)
propagates. -/
def processStream (seen : List String) : List Item → Except String (List String × List Record)
  | [] => .ok (seen, [])
  | it :: rest => do
    let cve_id ← itemId it
    if cve_id = "" ∨ cve_id ∈ seen then
      processStream seen rest
    else do
      let r ← normalizeCve (itemCve it) cve_id
      let (seen', batch) ← processStream (cve_id :: seen) rest
      .ok (seen', r :: batch)

/-- One `UpdateOne({"cve_id": id}, {"$set": clean_data}, upsert=True)`
against the collection: replace the first document whose `cve_id` matches,
or append the document when none does. -/
def upsertOne : List Record → Record → List Record
  | [], r => [r]
  | d :: ds, r => if d.cve_id = r.cve_id then r :: ds else d :: upsertOne ds r

/-- One `bulk_write` call: the batch's ordered writes applied left to
right. -/
def applyBulk (docs : List Record) (batch : List Record) : List Record :=
  batch.foldl upsertOne docs

/-- A list of upserts applied in order (same fold as `applyBulk`; named
separately for statements about whole runs). -/
def upsertAll (docs : List Record) (l : List Record) : List Record :=
  l.foldl upsertOne docs

/-- First stored document with the given `cve_id`. -/
def findById (docs : List Record) (k : String) : Option Record :=
  docs.find? (fun d => d.cve_id = k)

/-- Lexicographic comparison of code-point sequences; on valid UTF-8 this
coincides with the byte-wise order Mongo (BSON) uses for strings. -/
def charListLt : List Char → List Char → Bool
  | [], [] => false
  | [], _ :: _ => true
  | _ :: _, [] => false
  | a :: as, b :: bs =>
      if a.toNat < b.toNat then true
      else if b.toNat < a.toNat then false
      else charListLt as bs

/-- The string order Mongo applies when sorting the collection. -/
def strLt (a b : String) : Bool := charListLt a.data b.data

/-- String maximum under the Mongo sort order. -/
def strMax (a b : String) : String := if strLt a b then b else a

/-- `get_last_modified_date` from `app.py`:
`find_one({}, sort=[("last_modified", -1)])` returns a document whose
`last_modified` is greatest in the collection, and the function returns
that value, or `None` (`none`) when the collection is empty.  No value,
the sentinel `"Unknown"` included, is excluded from the sort. -/
def get_last_modified_date (docs : List Record) : Option String :=
  match docs with
  | [] => none
  | d :: ds => some (ds.foldl (fun acc r => strMax acc r.last_modified) d.last_modified)


/-- Observable outcome of one sync run: the query dicts passed to
`requests.get` in order, the item arrays of the pages that carried a
`"vulnerabilities"` key, the batches handed to `bulk_write` in order, the
final `total_results` and `start_index` values, whether the run ended via
the `break` on a non-200 status (the error print), and whether the
loop-fuel ran out (proved unreachable below). -/
structure RunResult where
  requests : List Request
  pages : List (List Item)
  flushes : List (List Record)
  totalResults : Option Nat
  finalStartIndex : Nat
  failed : Bool
  fuelOut : Bool
deriving DecidableEq

/-- Mutable loop state of `fetch_and_store_cves`, plus the observation
logs. -/
structure LoopSt where
  requests : List Request
  pages : List (List Item)
  flushes : List (List Record)
  seen : List String
  startIndex : Nat
  totalResults : Option Nat
deriving DecidableEq

/-- Package the loop state on normal or broken exit. -/
def finishRun (st : LoopSt) (failed fuelOut : Bool) : RunResult :=
  ⟨st.requests, st.pages, st.flushes, st.totalResults, st.startIndex, failed, fuelOut⟩

/-- Result of one iteration of the while loop: continue with the new
state, or `break` out of the loop (non-200 status). -/
inductive StepOut where
  | cont (st : LoopSt)
  | brk (st : LoopSt)
deriving DecidableEq

/-- One iteration of the while loop in `fetch_and_store_cves`, lines
52–96: issue `requests.get` with the run's (never-updated) `params`,
raise on a transport error or a malformed body, learn `total_results`
from the first successful page, process the `"vulnerabilities"` items
through the dedup-and-normalize loop, flush a non-empty batch via
`bulk_write`, advance `start_index` by `RESULTS_PER_PAGE` — or `break`
on a non-200 status. -/
def iterBody (feed : Nat → FetchOutcome) (params : Request) (st : LoopSt) :
    Except String StepOut :=
  match feed st.requests.length with
  | .exn => .error "requests.exceptions.RequestException"
  | .resp status obody =>
    let st := { st with requests := st.requests ++ [params] }
    if status = 200 then do
      let data ← match obody with
        | none => .error "json.JSONDecodeError"
        | some b => .ok b
      let st := { st with totalResults :=
        if st.totalResults = none then some (data.totalResults.getD 0)
        else st.totalResults }
      let st ← match data.vulnerabilities with
        | some items => do
            let (seen', batch) ← processStream st.seen items
            pure { st with
                    pages := st.pages ++ [items]
                    seen := seen'
                    flushes := if batch ≠ [] then st.flushes ++ [batch] else st.flushes }
        | none => pure st
      .ok (.cont { st with startIndex := st.startIndex + RESULTS_PER_PAGE })
    else
      .ok (.brk st)

/-- The while loop after the first iteration, once `total_results` is the
known value `t`: loop while `start_index < t`.  Each iteration advances
`start_index` by 200, so any `fuel ≥ t` is enough; the `fuelOut` marker is
proved unreachable for the fuel the caller supplies. -/
def loopF (feed : Nat → FetchOutcome) (params : Request) (t : Nat) :
    Nat → LoopSt → Except String RunResult
  | 0, st =>
      if st.startIndex < t then .ok (finishRun st false true)
      else .ok (finishRun st false false)
  | fuel + 1, st =>
      if st.startIndex < t then do
        let out ← iterBody feed params st
        match out with
        | .cont st' => loopF feed params t fuel st'
        | .brk st' => .ok (finishRun st' true false)
      else .ok (finishRun st false false)

/-- `fetch_and_store_cves` from `app.py`.  `params` is built once, before
the loop, and never updated.  The first iteration runs unconditionally
(`total_results is None` makes the loop condition true); a completed
first iteration always sets `total_results`, after which the loop
continues while `start_index < total_results`.  The run only writes to
the collection (via the flush log), it never reads it. -/
def fetch_and_store_cves (feed : Nat → FetchOutcome)
    (last_modified_date : Option String) : Except String RunResult := do
  let params := mkParams last_modified_date
  let st0 : LoopSt := ⟨[], [], [], [], 0, none⟩
  let out ← iterBody feed params st0
  match out with
  | .brk st => .ok (finishRun st true false)
  | .cont st =>
    match st.totalResults with
    | some t => loopF feed params t t st
    | none => .ok (finishRun st false false)  -- unreachable: a completed iteration sets the total

/-- The collection after a run: each `bulk_write` batch applied in
order. -/
def runStore (docs : List Record) (res : RunResult) : List Record :=
  res.flushes.foldl applyBulk docs

/-- The message string of the `/fetch_cves` route. -/
def fetchSuccessMessage : String := "CVE data fetched and stored successfully."

/-- The `/fetch_cves` route: look up the watermark, run
`fetch_and_store_cves` with it, and return the fixed success message (an
uncaught exception from the run propagates to Flask).  The returned pair
carries the message and the collection state after the run. -/
def fetch_cves (feed : Nat → FetchOutcome) (docs : List Record) :
    Except String (String × List Record) := do
  let last_modified_date := get_last_modified_date docs
  let res ← fetch_and_store_cves feed last_modified_date
  .ok (fetchSuccessMessage, runStore docs res)

/-- One registered scheduler job: its interval in hours and the
`last_modified_date` argument it passes to `fetch_and_store_cves` when it
fires, as a function of the collection state at fire time. -/
structure ScheduledJob where
  intervalHours : Nat
  cutoff : List Record → Option String

/-- `schedule_cve_sync` from `app.py`: the two periodic jobs it registers.
The 6-hour job is `fetch_and_store_cves` itself, so it passes the default
`last_modified_date=None`; the 24-hour job is a lambda passing
`last_modified_date=None` explicitly.  Neither consults
`get_last_modified_date`. -/
def schedule_cve_sync : List ScheduledJob :=
  [⟨6, fun _ => none⟩, ⟨24, fun _ => none⟩]


theorem findById_cons_self (d : Record) (ds : List Record) (k : String)
    (h : d.cve_id = k) : findById (d :: ds) k = some d := by
  simp [findById, List.find?, h]

theorem findById_cons_ne (d : Record) (ds : List Record) (k : String)
    (h : ¬ d.cve_id = k) : findById (d :: ds) k = findById ds k := by
  simp [findById, List.find?, h]

theorem findById_upsertOne_self (docs : List Record) (r : Record) :
    findById (upsertOne docs r) r.cve_id = some r := by
  induction docs with
  | nil => simp [upsertOne, findById, List.find?]
  | cons d ds ih =>
    by_cases h : d.cve_id = r.cve_id
    · simp only [upsertOne, if_pos h]
      exact findById_cons_self r (ds) r.cve_id rfl
    · simp only [upsertOne, if_neg h]
      rw [findById_cons_ne d (upsertOne ds r) r.cve_id h]
      exact ih

theorem findById_upsertOne_ne (docs : List Record) (r : Record) (k : String)
    (hk : k ≠ r.cve_id) : findById (upsertOne docs r) k = findById docs k := by
  have hrk : ¬ r.cve_id = k := fun h2 => hk h2.symm
  induction docs with
  | nil =>
    show findById [r] k = findById [] k
    rw [findById_cons_ne r [] k hrk]
  | cons d ds ih =>
    by_cases h : d.cve_id = r.cve_id
    · have hdk : ¬ d.cve_id = k := by rw [h]; exact hrk
      simp only [upsertOne, if_pos h]
      rw [findById_cons_ne r ds k hrk, findById_cons_ne d ds k hdk]
    · simp only [upsertOne, if_neg h]
      by_cases hdk : d.cve_id = k
      · rw [findById_cons_self d (upsertOne ds r) k hdk, findById_cons_self d ds k hdk]
      · rw [findById_cons_ne d (upsertOne ds r) k hdk, findById_cons_ne d ds k hdk]
        exact ih

theorem upsertOne_of_findById (docs : List Record) (r : Record)
    (h : findById docs r.cve_id = some r) : upsertOne docs r = docs := by
  induction docs with
  | nil => simp [findById] at h
  | cons d ds ih =>
    by_cases hd : d.cve_id = r.cve_id
    · rw [findById_cons_self d ds r.cve_id hd] at h
      have hdr : d = r := by simpa using h
      subst hdr
      simp [upsertOne]
    · rw [findById_cons_ne d ds r.cve_id hd] at h
      simp only [upsertOne, if_neg hd]
      rw [ih h]

theorem upsertAll_append (docs : List Record) (a b : List Record) :
    upsertAll docs (a ++ b) = upsertAll (upsertAll docs a) b := by
  simp [upsertAll, List.foldl_append]

theorem findById_upsertAll_not_mem (l : List Record) :
    ∀ (docs : List Record) (k : String), k ∉ l.map Record.cve_id →
    findById (upsertAll docs l) k = findById docs k := by
  induction l with
  | nil => intro docs k _; simp [upsertAll]
  | cons r rs ih =>
    intro docs k hk
    simp only [List.map_cons, List.mem_cons] at hk
    push_neg at hk
    have : upsertAll docs (r :: rs) = upsertAll (upsertOne docs r) rs := rfl
    rw [this, ih (upsertOne docs r) k hk.2, findById_upsertOne_ne docs r k hk.1]

theorem findById_upsertAll_mem (l : List Record) :
    ∀ (docs : List Record) (r : Record),
    (l.map Record.cve_id).Nodup → r ∈ l →
    findById (upsertAll docs l) r.cve_id = some r := by
  induction l with
  | nil => intro docs r _ hr; cases hr
  | cons x rs ih =>
    intro docs r hnd hr
    simp only [List.map_cons, List.nodup_cons] at hnd
    have hstep : upsertAll docs (x :: rs) = upsertAll (upsertOne docs x) rs := rfl
    rcases List.mem_cons.mp hr with hx | hrs
    · subst hx
      rw [hstep, findById_upsertAll_not_mem rs (upsertOne docs r) r.cve_id hnd.1]
      exact findById_upsertOne_self docs r
    · rw [hstep]; exact ih (upsertOne docs x) r hnd.2 hrs

theorem upsertAll_of_findById (l : List Record) :
    ∀ (docs : List Record), (∀ r ∈ l, findById docs r.cve_id = some r) →
    upsertAll docs l = docs := by
  induction l with
  | nil => intro docs _; rfl
  | cons r rs ih =>
    intro docs h
    have h1 : upsertOne docs r = docs :=
      upsertOne_of_findById docs r (h r (List.mem_cons_self r rs))
    have hstep : upsertAll docs (r :: rs) = upsertAll (upsertOne docs r) rs := rfl
    rw [hstep, h1]
    exact ih docs (fun x hx => h x (List.mem_cons_of_mem r hx))

/-- Re-applying a duplicate-free batch of upserts leaves the collection
unchanged. -/
theorem upsertAll_idem (docs : List Record) (l : List Record)
    (hnd : (l.map Record.cve_id).Nodup) :
    upsertAll (upsertAll docs l) l = upsertAll docs l :=
  upsertAll_of_findById l (upsertAll docs l)
    (fun r hr => findById_upsertAll_mem l docs r hnd hr)

theorem runStore_eq_upsertAll (docs : List Record) (res : RunResult) :
    runStore docs res = upsertAll docs res.flushes.flatten := by
  show res.flushes.foldl applyBulk docs = upsertAll docs res.flushes.flatten
  induction res.flushes generalizing docs with
  | nil => rfl
  | cons b bs ih =>
    simp only [List.foldl_cons, List.flatten_cons]
    rw [upsertAll_append]
    exact ih (applyBulk docs b)

theorem exc_ok_bind {e a b : Type} (x : a) (f : a → Except e b) :
    (Except.ok x >>= f) = f x := rfl

theorem exc_err_bind {e a b : Type} (s : e) (f : a → Except e b) :
    ((Except.error s : Except e a) >>= f) = Except.error s := rfl

theorem find?_cons_true {a : Type} (p : a → Bool) (x : a) (l : List a)
    (h : p x = true) : List.find? p (x :: l) = some x := by
  simp [List.find?, h]

theorem find?_cons_false {a : Type} (p : a → Bool) (x : a) (l : List a)
    (h : p x = false) : List.find? p (x :: l) = List.find? p l := by
  simp [List.find?, h]

/-- The record built by the extraction code carries the id it was built
for. -/
theorem normalizeCve_id (cd : CveData) (k : String) (r : Record)
    (h : normalizeCve cd k = .ok r) : r.cve_id = k := by
  cases h1 : pyStrip (cd.sourceIdentifier.getD (.vstr "Unknown")) with
  | error e =>
    simp only [normalizeCve, h1, exc_err_bind] at h
    exact absurd h (by simp)
  | ok si =>
    cases h2 : pyStrip (cd.vulnStatus.getD (.vstr "Unknown")) with
    | error e =>
      simp only [normalizeCve, h1, h2, exc_ok_bind, exc_err_bind] at h
      exact absurd h (by simp)
    | ok stt =>
      simp only [normalizeCve, h1, h2, exc_ok_bind] at h
      obtain rfl : _ = r := by simpa using h
      rfl

/-- Composing the per-item loop over two consecutive chunks of the item
stream: the `seen` set threads through and the batches concatenate. -/
theorem processStream_append (xs : List Item) :
    ∀ (ys : List Item) (seen s1 s2 : List String) (b1 b2 : List Record),
    processStream seen xs = .ok (s1, b1) →
    processStream s1 ys = .ok (s2, b2) →
    processStream seen (xs ++ ys) = .ok (s2, b1 ++ b2) := by
  induction xs with
  | nil =>
    intro ys seen s1 s2 b1 b2 h1 h2
    obtain ⟨rfl, rfl⟩ : seen = s1 ∧ [] = b1 := by simpa [processStream] using h1
    simpa using h2
  | cons it rest ih =>
    intro ys seen s1 s2 b1 b2 h1 h2
    cases hid : itemId it with
    | error e =>
      simp only [processStream, hid, exc_err_bind] at h1
      exact absurd h1 (by simp)
    | ok s =>
      show processStream seen (it :: (rest ++ ys)) = _
      simp only [processStream, hid, exc_ok_bind] at h1 ⊢
      by_cases hc : s = "" ∨ s ∈ seen
      · rw [if_pos hc] at h1 ⊢
        exact ih ys seen s1 s2 b1 b2 h1 h2
      · rw [if_neg hc] at h1 ⊢
        cases hn : normalizeCve (itemCve it) s with
        | error e =>
          simp only [hn, exc_err_bind] at h1
          exact absurd h1 (by simp)
        | ok r =>
          simp only [hn, exc_ok_bind] at h1 ⊢
          cases hps : processStream (s :: seen) rest with
          | error e =>
            simp only [hps, exc_err_bind] at h1
            exact absurd h1 (by simp)
          | ok p =>
            obtain ⟨sn, bt⟩ := p
            simp only [hps, exc_ok_bind] at h1
            obtain ⟨rfl, rfl⟩ : sn = s1 ∧ r :: bt = b1 := by simpa using h1
            rw [ih ys (s :: seen) sn s2 bt b2 hps h2, exc_ok_bind]
            rfl

/-- Characterization of the per-item loop: the batch it produces has
pairwise-distinct, non-empty ids, none of them already seen, and every
batch entry is the normalization of the first item of the stream that
carries its id. -/
theorem processStream_ok (xs : List Item) :
    ∀ (seen seen' : List String) (batch : List Record),
    processStream seen xs = .ok (seen', batch) →
    ((∀ k, k ∈ seen' ↔ (k ∈ seen ∨ k ∈ batch.map Record.cve_id)) ∧
     (batch.map Record.cve_id).Nodup ∧
     (∀ u ∈ batch, u.cve_id ∉ seen ∧ ¬ u.cve_id = "" ∧
       ∃ it, xs.find? (itemHasId u.cve_id) = some it ∧
             normalizeCve (itemCve it) u.cve_id = .ok u)) := by
  induction xs with
  | nil =>
    intro seen seen' batch h
    obtain ⟨rfl, rfl⟩ : seen = seen' ∧ [] = batch := by simpa [processStream] using h
    refine ⟨fun k => by simp, by simp, by simp⟩
  | cons it rest ih =>
    intro seen seen' batch h
    cases hid : itemId it with
    | error e =>
      simp only [processStream, hid, exc_err_bind] at h
      exact absurd h (by simp)
    | ok s =>
      simp only [processStream, hid, exc_ok_bind] at h
      by_cases hc : s = "" ∨ s ∈ seen
      · rw [if_pos hc] at h
        obtain ⟨hi, hnd, hmem⟩ := ih seen seen' batch h
        refine ⟨hi, hnd, fun u hu => ?_⟩
        obtain ⟨h1, h2, it', hf, hn⟩ := hmem u hu
        have hsne : ¬ s = u.cve_id := by
          rcases hc with hc | hc
          · subst hc
            exact fun hh => h2 hh.symm
          · exact fun hh => h1 (hh ▸ hc)
        refine ⟨h1, h2, it', ?_, hn⟩
        rw [find?_cons_false (itemHasId u.cve_id) it rest (by simp [itemHasId, hid, hsne])]
        exact hf
      · rw [if_neg hc] at h
        push_neg at hc
        cases hn : normalizeCve (itemCve it) s with
        | error e =>
          simp only [hn, exc_err_bind] at h
          exact absurd h (by simp)
        | ok r =>
          simp only [hn, exc_ok_bind] at h
          cases hps : processStream (s :: seen) rest with
          | error e =>
            simp only [hps, exc_err_bind] at h
            exact absurd h (by simp)
          | ok p =>
            obtain ⟨sn, bt⟩ := p
            simp only [hps, exc_ok_bind] at h
            have hrid : r.cve_id = s := normalizeCve_id _ _ _ hn
            obtain ⟨rfl, rfl⟩ : sn = seen' ∧ r :: bt = batch := by simpa using h
            obtain ⟨hi, hnd, hmem⟩ := ih (s :: seen) sn bt hps
            refine ⟨?_, ?_, ?_⟩
            · intro k
              rw [hi k]
              simp only [List.map_cons, hrid, List.mem_cons]
              tauto
            · simp only [List.map_cons, List.nodup_cons]
              refine ⟨?_, hnd⟩
              rw [hrid]
              intro hmm
              obtain ⟨u, hu, hue⟩ := List.mem_map.mp hmm
              exact (hmem u hu).1 (by rw [hue]; exact List.mem_cons_self _ _)
            · intro u hu
              rcases List.mem_cons.mp hu with rfl | hub
              · refine ⟨?_, ?_, it, ?_, ?_⟩
                · rw [hrid]; exact hc.2
                · rw [hrid]; exact hc.1
                · exact find?_cons_true (itemHasId u.cve_id) it rest
                    (by simp [itemHasId, hid, hrid])
                · rw [hrid]; exact hn
              · obtain ⟨h1, h2, it', hf, hnn⟩ := hmem u hub
                have h1seen : u.cve_id ∉ seen := fun hh => h1 (List.mem_cons_of_mem _ hh)
                have hsne : ¬ s = u.cve_id := fun hh => h1 (hh ▸ List.mem_cons_self _ _)
                refine ⟨h1seen, h2, it', ?_, hnn⟩
                rw [find?_cons_false (itemHasId u.cve_id) it rest (by simp [itemHasId, hid, hsne])]
                exact hf

theorem exc_pure {e a : Type} (x : a) : (pure x : Except e a) = Except.ok x := rfl

/-- Loop invariant tying the logs together: replaying the per-item loop
over all items of all processed pages, from an empty seen-set, yields
exactly the current seen-set and the concatenation of all flushed
batches. -/
def StreamInv (st : LoopSt) : Prop :=
  processStream [] st.pages.flatten = .ok (st.seen, st.flushes.flatten)

/-- Case analysis of one loop iteration: either the status was not 200 and
the loop breaks with only the request logged, or the page was consumed,
the request logged, `start_index` advanced by the page size,
`total_results` learned if still unknown, and the stream invariant
preserved. -/
theorem iterBody_ok (feed : Nat → FetchOutcome) (params : Request) (st : LoopSt)
    (out : StepOut) (h : iterBody feed params st = .ok out) :
    ∃ status obody, feed st.requests.length = .resp status obody ∧
      ((¬ status = 200 ∧ out = .brk { st with requests := st.requests ++ [params] }) ∨
       (status = 200 ∧ ∃ body : PageBody, obody = some body ∧ ∃ st' : LoopSt,
         out = .cont st' ∧
         st'.requests = st.requests ++ [params] ∧
         st'.startIndex = st.startIndex + RESULTS_PER_PAGE ∧
         st'.totalResults =
           (if st.totalResults = none then some (body.totalResults.getD 0)
            else st.totalResults) ∧
         (StreamInv st → StreamInv st'))) := by
  cases hf : feed st.requests.length with
  | exn =>
    simp only [iterBody, hf] at h
    exact absurd h (by simp)
  | resp status obody =>
    refine ⟨status, obody, rfl, ?_⟩
    simp only [iterBody, hf] at h
    by_cases hs : status = 200
    · rw [if_pos hs] at h
      refine Or.inr ⟨hs, ?_⟩
      cases obody with
      | none =>
        simp only [exc_err_bind] at h
        exact absurd h (by simp)
      | some body =>
        refine ⟨body, rfl, ?_⟩
        simp only [exc_ok_bind] at h
        cases hv : body.vulnerabilities with
        | none =>
          rw [hv] at h
          simp only [exc_pure, exc_ok_bind] at h
          obtain rfl : _ = out := by simpa using h
          exact ⟨_, rfl, rfl, rfl, rfl, fun hInv => hInv⟩
        | some items =>
          rw [hv] at h
          cases hps : processStream st.seen items with
          | error e =>
            simp only [hps, exc_err_bind] at h
            exact absurd h (by simp)
          | ok p =>
            obtain ⟨sn, bt⟩ := p
            simp only [hps, exc_ok_bind, exc_pure] at h
            obtain rfl : _ = out := by simpa using h
            refine ⟨_, rfl, rfl, rfl, rfl, ?_⟩
            intro hInv
            have hstep := processStream_append st.pages.flatten items []
              st.seen sn st.flushes.flatten bt hInv hps
            show processStream [] _ = _
            by_cases hbt : bt = [] <;>
              simp only [hbt, if_true, if_false, reduceIte, ne_eq,
                not_true_eq_false, not_false_eq_true, List.flatten_append,
                List.flatten_cons, List.flatten_nil, List.append_nil] <;>
              subst_eqs <;>
              simpa [List.flatten_append] using hstep
    · rw [if_neg hs] at h
      obtain rfl : _ = out := by simpa using h
      exact Or.inl ⟨hs, rfl⟩

/-- The stream invariant survives the whole loop: whatever run result the
loop produces, its flushed batches are the per-item loop's output over the
processed pages. -/
theorem loopF_inv (feed : Nat → FetchOutcome) (params : Request) (t : Nat) :
    ∀ (fuel : Nat) (st : LoopSt) (res : RunResult),
    loopF feed params t fuel st = .ok res → StreamInv st →
    ∃ sn, processStream [] res.pages.flatten = .ok (sn, res.flushes.flatten) := by
  intro fuel
  induction fuel with
  | zero =>
    intro st res h hInv
    by_cases hlt : st.startIndex < t
    · simp only [loopF] at h
      rw [if_pos hlt] at h
      obtain rfl : _ = res := by simpa using h
      exact ⟨st.seen, hInv⟩
    · simp only [loopF] at h
      rw [if_neg hlt] at h
      obtain rfl : _ = res := by simpa using h
      exact ⟨st.seen, hInv⟩
  | succ fuel ih =>
    intro st res h hInv
    by_cases hlt : st.startIndex < t
    · simp only [loopF] at h
      rw [if_pos hlt] at h
      cases hib : iterBody feed params st with
      | error e =>
        rw [hib, exc_err_bind] at h
        exact absurd h (by simp)
      | ok out =>
        rw [hib, exc_ok_bind] at h
        obtain ⟨status, obody, hf, hcase⟩ := iterBody_ok feed params st out hib
        rcases hcase with ⟨hs, rfl⟩ | ⟨hs, body, rfl, st', rfl, hreq, hsi, htot, hpre⟩
        · obtain rfl : _ = res := by simpa using h
          exact ⟨st.seen, hInv⟩
        · exact ih st' res h (hpre hInv)
    · simp only [loopF] at h
      rw [if_neg hlt] at h
      obtain rfl : _ = res := by simpa using h
      exact ⟨st.seen, hInv⟩

/-- The flushed batches of any completed run are the per-item loop's
output over the concatenation of the run's pages, from an empty seen
set. -/
theorem run_stream (feed : Nat → FetchOutcome) (lmd : Option String) (res : RunResult)
    (h : fetch_and_store_cves feed lmd = .ok res) :
    ∃ sn, processStream [] res.pages.flatten = .ok (sn, res.flushes.flatten) := by
  simp only [fetch_and_store_cves] at h
  cases hib : iterBody feed (mkParams lmd) ⟨[], [], [], [], 0, none⟩ with
  | error e =>
    rw [hib, exc_err_bind] at h
    exact absurd h (by simp)
  | ok out =>
    rw [hib, exc_ok_bind] at h
    obtain ⟨status, obody, hf, hcase⟩ := iterBody_ok _ _ _ _ hib
    have hInv0 : StreamInv ⟨[], [], [], [], 0, none⟩ := rfl
    rcases hcase with ⟨hs, rfl⟩ | ⟨hs, body, rfl, st', rfl, hreq, hsi, htot, hpre⟩
    · obtain rfl : _ = res := by simpa using h
      exact ⟨[], rfl⟩
    · have hInv' := hpre hInv0
      have h' : (match st'.totalResults with
          | some t => loopF feed (mkParams lmd) t t st'
          | none => Except.ok (finishRun st' false false)) = Except.ok res := h
      cases htr : st'.totalResults with
      | some t =>
        rw [htr] at h'
        exact loopF_inv feed (mkParams lmd) t t st' res h' hInv'
      | none =>
        rw [htr] at h'
        obtain rfl : _ = res := by simpa using h'
        exact ⟨st'.seen, hInv'⟩

theorem loopF_no_fuelOut (feed : Nat → FetchOutcome) (params : Request) (t : Nat) :
    ∀ (fuel : Nat) (st : LoopSt) (res : RunResult),
    t ≤ st.startIndex + RESULTS_PER_PAGE * fuel →
    loopF feed params t fuel st = .ok res → res.fuelOut = false := by
  intro fuel
  induction fuel with
  | zero =>
    intro st res hle h
    have hnlt : ¬ st.startIndex < t := by
      simp only [RESULTS_PER_PAGE] at hle
      omega
    simp only [loopF] at h
    rw [if_neg hnlt] at h
    obtain rfl : _ = res := by simpa using h
    rfl
  | succ fuel ih =>
    intro st res hle h
    by_cases hlt : st.startIndex < t
    · simp only [loopF] at h
      rw [if_pos hlt] at h
      cases hib : iterBody feed params st with
      | error e =>
        rw [hib, exc_err_bind] at h
        exact absurd h (by simp)
      | ok out =>
        rw [hib, exc_ok_bind] at h
        obtain ⟨status, obody, hf, hcase⟩ := iterBody_ok feed params st out hib
        rcases hcase with ⟨hs, rfl⟩ | ⟨hs, body, rfl, st', rfl, hreq, hsi, htot, hpre⟩
        · obtain rfl : _ = res := by simpa using h
          rfl
        · refine ih st' res ?_ h
          rw [hsi]
          simp only [RESULTS_PER_PAGE] at hle ⊢
          omega
    · simp only [loopF] at h
      rw [if_neg hlt] at h
      obtain rfl : _ = res := by simpa using h
      rfl

/-- The loop fuel the embedding passes is always sufficient: no completed
run ever reports fuel exhaustion, so the fuel-indexed loop agrees with the
unbounded `while` of the source. -/
theorem run_no_fuelOut (feed : Nat → FetchOutcome) (lmd : Option String)
    (res : RunResult) (h : fetch_and_store_cves feed lmd = .ok res) :
    res.fuelOut = false := by
  simp only [fetch_and_store_cves] at h
  cases hib : iterBody feed (mkParams lmd) ⟨[], [], [], [], 0, none⟩ with
  | error e =>
    rw [hib, exc_err_bind] at h
    exact absurd h (by simp)
  | ok out =>
    rw [hib, exc_ok_bind] at h
    obtain ⟨status, obody, hf, hcase⟩ := iterBody_ok _ _ _ _ hib
    rcases hcase with ⟨hs, rfl⟩ | ⟨hs, body, rfl, st', rfl, hreq, hsi, htot, hpre⟩
    · obtain rfl : _ = res := by simpa using h
      rfl
    · have h' : (match st'.totalResults with
          | some t => loopF feed (mkParams lmd) t t st'
          | none => Except.ok (finishRun st' false false)) = Except.ok res := h
      cases htr : st'.totalResults with
      | some t =>
        rw [htr] at h'
        refine loopF_no_fuelOut feed (mkParams lmd) t t st' res ?_ h'
        rw [hsi]
        simp only [RESULTS_PER_PAGE]
        omega
      | none =>
        rw [htr] at h'
        obtain rfl : _ = res := by simpa using h'
        rfl

/-- In the steady-state loop: a run that ended via the `break` issued one
failing (non-200) fetch after a row of successful ones, never advanced
`start_index` past the failing fetch, and issued no fetch beyond it. -/
theorem loopF_failed (feed : Nat → FetchOutcome) (params : Request) (t : Nat) :
    ∀ (fuel : Nat) (st : LoopSt) (res : RunResult),
    st.startIndex = RESULTS_PER_PAGE * st.requests.length →
    1 ≤ st.requests.length →
    (∀ i, i < st.requests.length → ∃ b, feed i = .resp 200 (some b)) →
    loopF feed params t fuel st = .ok res → res.failed = true →
    (2 ≤ res.requests.length ∧
     res.finalStartIndex = RESULTS_PER_PAGE * (res.requests.length - 1) ∧
     (∃ s ob, feed (res.requests.length - 1) = .resp s ob ∧ ¬ s = 200) ∧
     (∀ i, i < res.requests.length - 1 → ∃ b, feed i = .resp 200 (some b))) := by
  intro fuel
  induction fuel with
  | zero =>
    intro st res hsi hlen hok h hfail
    by_cases hlt : st.startIndex < t
    · simp only [loopF] at h
      rw [if_pos hlt] at h
      obtain rfl : _ = res := by simpa using h
      simp [finishRun] at hfail
    · simp only [loopF] at h
      rw [if_neg hlt] at h
      obtain rfl : _ = res := by simpa using h
      simp [finishRun] at hfail
  | succ fuel ih =>
    intro st res hsi hlen hok h hfail
    by_cases hlt : st.startIndex < t
    · simp only [loopF] at h
      rw [if_pos hlt] at h
      cases hib : iterBody feed params st with
      | error e =>
        rw [hib, exc_err_bind] at h
        exact absurd h (by simp)
      | ok out =>
        rw [hib, exc_ok_bind] at h
        obtain ⟨status, obody, hf, hcase⟩ := iterBody_ok feed params st out hib
        rcases hcase with ⟨hs, rfl⟩ | ⟨hs, body, rfl, st', rfl, hreq, hsi', htot, hpre⟩
        · obtain rfl : _ = res := by simpa using h
          refine ⟨?_, ?_, ?_, ?_⟩
          · simp only [finishRun, List.length_append, List.length_cons,
              List.length_nil]
            omega
          · simp only [finishRun, List.length_append, List.length_cons,
              List.length_nil, Nat.add_sub_cancel]
            exact hsi
          · refine ⟨status, obody, ?_, hs⟩
            simp only [finishRun, List.length_append, List.length_cons,
              List.length_nil, Nat.add_sub_cancel]
            exact hf
          · intro i hi
            apply hok
            simp only [finishRun, List.length_append, List.length_cons,
              List.length_nil, Nat.add_sub_cancel] at hi
            exact hi
        · subst hs
          refine ih st' res ?_ ?_ ?_ h hfail
          · rw [hsi', hreq, hsi, List.length_append]
            simp [Nat.mul_add]
          · rw [hreq, List.length_append]
            simp
          · intro i hi
            rw [hreq, List.length_append, List.length_cons, List.length_nil] at hi
            rcases Nat.lt_succ_iff_lt_or_eq.mp hi with hi' | rfl
            · exact hok i hi'
            · exact ⟨body, hf⟩
    · simp only [loopF] at h
      rw [if_neg hlt] at h
      obtain rfl : _ = res := by simpa using h
      simp [finishRun] at hfail

/-- C1.  With the upstream reporting `totalResults = 450` and page size
200, the orchestrator does issue exactly 3 page fetches and terminate —
but, because the `params` dict is built once before the loop and never
updated, all three requests carry `startIndex = 0` instead of the claimed
offsets 0, 200 and 400. -/
theorem c1_three_fetches_all_at_offset_zero :
    fetch_and_store_cves (fun _ => .resp 200 (some ⟨some 450, some []⟩)) none =
      .ok ⟨[⟨0, 200, none⟩, ⟨0, 200, none⟩, ⟨0, 200, none⟩], [[], [], []], [],
           some 450, 600, false, false⟩ ∧
    (⟨0, 200, none⟩ : Request).startIndex = 0 := ⟨rfl, rfl⟩

/-- C2.  The watermark lookup sorts the sentinel `"Unknown"` above every
real date (byte-wise string order), so on stored `last_modified` values
`{"Unknown", "2023-01-01", "2023-06-15"}` it returns `"Unknown"` — not
`"2023-06-15"` — and on an all-`"Unknown"` store it returns
`some "Unknown"` rather than a no-watermark result. -/
theorem c2_watermark_returns_sentinel :
    get_last_modified_date
      [⟨"CVE-1", "s", "2023-01-01", "Unknown", "Analyzed"⟩,
       ⟨"CVE-2", "s", "2023-01-01", "2023-01-01", "Analyzed"⟩,
       ⟨"CVE-3", "s", "2023-01-01", "2023-06-15", "Analyzed"⟩] = some "Unknown" ∧
    ¬ (some "Unknown" : Option String) = some "2023-06-15" ∧
    get_last_modified_date
      [⟨"CVE-1", "s", "2023-01-01", "Unknown", "Analyzed"⟩,
       ⟨"CVE-2", "s", "2023-01-01", "Unknown", "Analyzed"⟩] = some "Unknown" ∧
    ¬ (some "Unknown" : Option String) = none := by
  refine ⟨by decide, by decide, by decide, by decide⟩

/-- C3.  Both periodic jobs registered by `schedule_cve_sync` call
`fetch_and_store_cves` with `last_modified_date = None`: the 6-hour
"incremental" job passes no argument and the 24-hour job passes `None`
explicitly, even when storage holds a real watermark such as
`"2023-06-15"`. -/
theorem c3_both_periodic_jobs_pass_no_cutoff :
    schedule_cve_sync.map ScheduledJob.intervalHours = [6, 24] ∧
    schedule_cve_sync.map
      (fun j => j.cutoff [⟨"CVE-1", "s", "2023-01-01", "2023-06-15", "Analyzed"⟩])
      = [none, none] ∧
    get_last_modified_date [⟨"CVE-1", "s", "2023-01-01", "2023-06-15", "Analyzed"⟩]
      = some "2023-06-15" := ⟨rfl, rfl, by decide⟩

/-- C4, counterexample.  When the very first fetch returns a non-200
status the run breaks (`failed = true`), yet the `/fetch_cves` route
still answers with the fixed success message: the failure, and the offset
it occurred at, are not surfaced to the on-demand caller. -/
theorem c4_counterexample_success_message_despite_failure :
    fetch_and_store_cves (fun _ => .resp 500 none) none =
      .ok ⟨[⟨0, 200, none⟩], [], [], none, 0, true, false⟩ ∧
    fetch_cves (fun _ => .resp 500 none) [] =
      .ok ("CVE data fetched and stored successfully.", []) := ⟨rfl, rfl⟩

/-- C10.  A present-but-non-string `sourceIdentifier` or `vulnStatus`
(e.g. JSON `null`) makes the run raise an uncaught `AttributeError` from
`.strip()` and abort, while the same values in the date fields — or the
keys being absent altogether — are tolerated and mapped to `"Unknown"`. -/
theorem c10_nonstring_source_or_status_raises :
    fetch_and_store_cves (fun _ => .resp 200 (some ⟨some 1,
        some [⟨some ⟨some (.vstr "CVE-2024-0001"), some .vnull, none, none,
                    some (.vstr "Analyzed")⟩⟩]⟩)) none =
      .error "AttributeError: NoneType has no attribute strip" ∧
    fetch_and_store_cves (fun _ => .resp 200 (some ⟨some 1,
        some [⟨some ⟨some (.vstr "CVE-2024-0001"), some (.vstr "nvd@nist.gov"),
                    none, none, some .vother⟩⟩]⟩)) none =
      .error "AttributeError: value has no attribute strip" ∧
    fetch_and_store_cves (fun _ => .resp 200 (some ⟨some 1,
        some [⟨some ⟨some (.vstr "CVE-2024-0002"), none, none, none, none⟩⟩]⟩)) none =
      .ok ⟨[⟨0, 200, none⟩],
           [[⟨some ⟨some (.vstr "CVE-2024-0002"), none, none, none, none⟩⟩]],
           [[⟨"CVE-2024-0002", "Unknown", "Unknown", "Unknown", "Unknown"⟩]],
           some 1, 200, false, false⟩ ∧
    fetch_and_store_cves (fun _ => .resp 200 (some ⟨some 1,
        some [⟨some ⟨some (.vstr "CVE-2024-0003"), some (.vstr "x"), some .vnull,
                    some (.vstr "2023-06-15T10:30:00.000"), some (.vstr "y")⟩⟩]⟩)) none =
      .ok ⟨[⟨0, 200, none⟩],
           [[⟨some ⟨some (.vstr "CVE-2024-0003"), some (.vstr "x"), some .vnull,
                   some (.vstr "2023-06-15T10:30:00.000"), some (.vstr "y")⟩⟩]],
           [[⟨"CVE-2024-0003", "x", "Unknown", "2023-06-15", "y"⟩]],
           some 1, 200, false, false⟩ := ⟨rfl, rfl, rfl, rfl⟩

/-- Any run that ended via the `break`: its last fetch returned a non-200
status, every earlier fetch succeeded with a parsed body, `start_index`
never advanced past the failing fetch, no fetch was issued beyond it, and
when the very first fetch failed no total was recorded at all. -/
theorem run_failed (feed : Nat → FetchOutcome) (lmd : Option String)
    (res : RunResult) (h : fetch_and_store_cves feed lmd = .ok res)
    (hfail : res.failed = true) :
    1 ≤ res.requests.length ∧
    res.finalStartIndex = RESULTS_PER_PAGE * (res.requests.length - 1) ∧
    (∃ s ob, feed (res.requests.length - 1) = .resp s ob ∧ ¬ s = 200) ∧
    (∀ i, i < res.requests.length - 1 → ∃ b, feed i = .resp 200 (some b)) ∧
    (res.requests.length = 1 → res.totalResults = none) := by
  simp only [fetch_and_store_cves] at h
  cases hib : iterBody feed (mkParams lmd) ⟨[], [], [], [], 0, none⟩ with
  | error e =>
    rw [hib, exc_err_bind] at h
    exact absurd h (by simp)
  | ok out =>
    rw [hib, exc_ok_bind] at h
    obtain ⟨status, obody, hf, hcase⟩ := iterBody_ok _ _ _ _ hib
    rcases hcase with ⟨hs, rfl⟩ | ⟨hs, body, rfl, st', rfl, hreq, hsi, htot, hpre⟩
    · obtain rfl : _ = res := by simpa using h
      refine ⟨by simp [finishRun], by simp [finishRun], ⟨status, obody, ?_, hs⟩, ?_, ?_⟩
      · simpa [finishRun] using hf
      · intro i hi
        refine absurd hi ?_
        simp [finishRun]
      · intro _
        rfl
    · subst hs
      have h' : (match st'.totalResults with
          | some t => loopF feed (mkParams lmd) t t st'
          | none => Except.ok (finishRun st' false false)) = Except.ok res := h
      cases htr : st'.totalResults with
      | none =>
        rw [htr] at h'
        obtain rfl : _ = res := by simpa using h'
        simp [finishRun] at hfail
      | some t =>
        rw [htr] at h'
        have hlen1 : st'.requests.length = 1 := by rw [hreq]; rfl
        have key := loopF_failed feed (mkParams lmd) t t st' res ?_ ?_ ?_ h' hfail
        · exact ⟨by omega, key.2.1, key.2.2.1, key.2.2.2,
            fun h1 => absurd h1 (by omega)⟩
        · rw [hsi, hlen1]
          simp
        · rw [hlen1]
      
        · intro i hi
          rw [hlen1] at hi
          interval_cases i
          exact ⟨body, hf⟩

/-- Whenever the run completes without an uncaught exception — the broken
(`failed`) case included — the `/fetch_cves` route answers with the fixed
success message and the post-run collection state. -/
theorem fetch_cves_of_run (feed : Nat → FetchOutcome) (docs : List Record)
    (res : RunResult)
    (h : fetch_and_store_cves feed (get_last_modified_date docs) = .ok res) :
    fetch_cves feed docs = .ok (fetchSuccessMessage, runStore docs res) := by
  simp only [fetch_cves, h, exc_ok_bind]

/-- C4, amended.  On a non-success status at any page the run aborts:
`start_index` is not advanced past the failing fetch, no fetch is issued
beyond it, and when the failure hit the first page no total is recorded
(every prior fetch had returned 200 with a parsed body).  The failure is
however only printed: the on-demand route still returns the fixed success
message together with whatever the run had already written.  (Transport
errors and malformed bodies are not folded into this condition — they
raise uncaught exceptions instead, modelled by the `.error` results.) -/
theorem c4_abort_without_advancing_but_failure_not_surfaced :
    (∀ (feed : Nat → FetchOutcome) (lmd : Option String) (res : RunResult),
      fetch_and_store_cves feed lmd = .ok res → res.failed = true →
      (1 ≤ res.requests.length ∧
       res.finalStartIndex = RESULTS_PER_PAGE * (res.requests.length - 1) ∧
       (∃ s ob, feed (res.requests.length - 1) = .resp s ob ∧ ¬ s = 200) ∧
       (∀ i, i < res.requests.length - 1 → ∃ b, feed i = .resp 200 (some b)) ∧
       (res.requests.length = 1 → res.totalResults = none))) ∧
    (∀ (feed : Nat → FetchOutcome) (docs : List Record) (res : RunResult),
      fetch_and_store_cves feed (get_last_modified_date docs) = .ok res →
      fetch_cves feed docs = .ok ("CVE data fetched and stored successfully.",
                                  runStore docs res)) :=
  ⟨fun feed lmd res h hfail => run_failed feed lmd res h hfail,
   fun feed docs res h => fetch_cves_of_run feed docs res h⟩

theorem c4_witness :
    (1 ≤ [(⟨0, 200, none⟩ : Request)].length ∧
     (0 : Nat) = RESULTS_PER_PAGE * ([(⟨0, 200, none⟩ : Request)].length - 1) ∧
     (∃ s ob, (fun _ => FetchOutcome.resp 500 none) ([(⟨0, 200, none⟩ : Request)].length - 1)
        = .resp s ob ∧ ¬ s = 200) ∧
     (∀ i, i < [(⟨0, 200, none⟩ : Request)].length - 1 →
        ∃ b, (fun _ => FetchOutcome.resp 500 none) i = FetchOutcome.resp 200 (some b)) ∧
     ([(⟨0, 200, none⟩ : Request)].length = 1 → (none : Option Nat) = none)) ∧
    fetch_cves (fun _ => FetchOutcome.resp 500 none) [] =
      .ok ("CVE data fetched and stored successfully.", []) :=
  ⟨c4_abort_without_advancing_but_failure_not_surfaced.1
      (fun _ => FetchOutcome.resp 500 none) none
      ⟨[⟨0, 200, none⟩], [], [], none, 0, true, false⟩ (by rfl) (by rfl),
   c4_abort_without_advancing_but_failure_not_surfaced.2
      (fun _ => FetchOutcome.resp 500 none) []
      ⟨[⟨0, 200, none⟩], [], [], none, 0, true, false⟩ (by rfl)⟩

/-- C5.  In any run that completes without an uncaught exception, the
upserts issued carry pairwise-distinct non-empty ids, each one is the
normalization of the first item (in page-then-position order across the
run's pages) bearing its id, and after applying the run's bulk writes the
stored document under that id is exactly that first occurrence's
record. -/
theorem c5_dedup_first_occurrence_wins (feed : Nat → FetchOutcome)
    (lmd : Option String) (res : RunResult)
    (h : fetch_and_store_cves feed lmd = .ok res) :
    (res.flushes.flatten.map Record.cve_id).Nodup ∧
    (∀ u ∈ res.flushes.flatten, ¬ u.cve_id = "") ∧
    (∀ u ∈ res.flushes.flatten, ∃ it,
       res.pages.flatten.find? (itemHasId u.cve_id) = some it ∧
       normalizeCve (itemCve it) u.cve_id = .ok u) ∧
    (∀ (docs : List Record) (u : Record), u ∈ res.flushes.flatten →
       findById (runStore docs res) u.cve_id = some u) := by
  obtain ⟨sn, hstream⟩ := run_stream feed lmd res h
  obtain ⟨hseen, hnd, hmem⟩ :=
    processStream_ok res.pages.flatten [] sn res.flushes.flatten hstream
  refine ⟨hnd, fun u hu => (hmem u hu).2.1,
    fun u hu => (hmem u hu).2.2, ?_⟩
  intro docs u hu
  rw [runStore_eq_upsertAll]
  exact findById_upsertAll_mem res.flushes.flatten docs u hnd hu

/-- A feed whose single page carries two items sharing id `"CVE-5"` with
different `sourceIdentifier` fields. -/
def dupFeed : Nat → FetchOutcome := fun _ =>
  .resp 200 (some ⟨some 2, some
    [⟨some ⟨some (.vstr "CVE-5"), some (.vstr "first"), none, none, none⟩⟩,
     ⟨some ⟨some (.vstr "CVE-5"), some (.vstr "second"), none, none, none⟩⟩]⟩)

/-- The run result on `dupFeed`: only the first occurrence is upserted. -/
def dupRes : RunResult :=
  ⟨[⟨0, 200, none⟩],
   [[⟨some ⟨some (.vstr "CVE-5"), some (.vstr "first"), none, none, none⟩⟩,
     ⟨some ⟨some (.vstr "CVE-5"), some (.vstr "second"), none, none, none⟩⟩]],
   [[⟨"CVE-5", "first", "Unknown", "Unknown", "Unknown"⟩]],
   some 2, 200, false, false⟩

theorem c5_witness :
    (dupRes.flushes.flatten.map Record.cve_id).Nodup ∧
    (∀ u ∈ dupRes.flushes.flatten, ¬ u.cve_id = "") ∧
    (∀ u ∈ dupRes.flushes.flatten, ∃ it,
       dupRes.pages.flatten.find? (itemHasId u.cve_id) = some it ∧
       normalizeCve (itemCve it) u.cve_id = .ok u) ∧
    (∀ (docs : List Record) (u : Record), u ∈ dupRes.flushes.flatten →
       findById (runStore docs dupRes) u.cve_id = some u) :=
  c5_dedup_first_occurrence_wins dupFeed none dupRes (by rfl)

/-- C6.  The field normalizer maps a string in the single expected
upstream timestamp format to its date-only equivalent and everything
else — any other string, `null`, any non-string, or an absent key — to
the sentinel `"Unknown"`; it is a total function (the parse failure is
printed, never raised) and it is applied independently to both
`published` and `lastModified` when a record is extracted. -/
theorem c6_normalizer_date_only_or_unknown :
    (∀ s ymd, parseUpstreamTs s = some ymd → clean_date (.vstr s) = isoDate ymd) ∧
    (∀ s, parseUpstreamTs s = none → clean_date (.vstr s) = "Unknown") ∧
    clean_date .vnull = "Unknown" ∧
    clean_date .vother = "Unknown" ∧
    (∀ v : Option PyVal, v = none → clean_date (v.getD (.vstr "Unknown")) = "Unknown") ∧
    (∀ (cd : CveData) (k : String) (r : Record), normalizeCve cd k = .ok r →
       r.published = clean_date (cd.published.getD (.vstr "Unknown")) ∧
       r.last_modified = clean_date (cd.lastModified.getD (.vstr "Unknown"))) := by
  refine ⟨?_, ?_, rfl, rfl, ?_, ?_⟩
  · intro s ymd hp
    have hs : ¬ s = "" := by
      intro hrfl
      rw [hrfl] at hp
      simp [parseUpstreamTs] at hp
    simp [clean_date, hs, hp]
  · intro s hp
    by_cases hs : s = ""
    · simp [clean_date, hs]
    · simp [clean_date, hs, hp]
  · intro v hv
    subst hv
    decide
  · intro cd k r h
    cases h1 : pyStrip (cd.sourceIdentifier.getD (.vstr "Unknown")) with
    | error e =>
      simp only [normalizeCve, h1, exc_err_bind] at h
      exact absurd h (by simp)
    | ok si =>
      cases h2 : pyStrip (cd.vulnStatus.getD (.vstr "Unknown")) with
      | error e =>
        simp only [normalizeCve, h1, h2, exc_ok_bind, exc_err_bind] at h
        exact absurd h (by simp)
      | ok stt =>
        simp only [normalizeCve, h1, h2, exc_ok_bind] at h
        obtain rfl : _ = r := by simpa using h
        exact ⟨rfl, rfl⟩

theorem c6_witness :
    clean_date (.vstr "2023-06-15T10:30:00.000") = isoDate (2023, 6, 15) ∧
    clean_date (.vstr "15 June 2023") = "Unknown" ∧
    clean_date ((none : Option PyVal).getD (.vstr "Unknown")) = "Unknown" :=
  ⟨c6_normalizer_date_only_or_unknown.1 "2023-06-15T10:30:00.000" (2023, 6, 15) (by decide),
   c6_normalizer_date_only_or_unknown.2.1 "15 June 2023" (by decide),
   c6_normalizer_date_only_or_unknown.2.2.2.2.1 none rfl⟩

/-- C7.  A full sync replayed against the unchanged feed leaves the
collection exactly as the first run left it, and, at the upsert-writer
level, replaying any already-applied duplicate-free prefix of a batch
sequence before the full sequence converges to the same final state as
the full sequence alone. -/
theorem c7_rerun_idempotent :
    (∀ (feed : Nat → FetchOutcome) (docs : List Record) (res : RunResult),
       fetch_and_store_cves feed none = .ok res →
       runStore (runStore docs res) res = runStore docs res) ∧
    (∀ (docs p tl : List Record), ((p ++ tl).map Record.cve_id).Nodup →
       upsertAll (upsertAll docs p) (p ++ tl) = upsertAll docs (p ++ tl)) := by
  constructor
  · intro feed docs res h
    obtain ⟨sn, hstream⟩ := run_stream feed none res h
    obtain ⟨_, hnd, _⟩ :=
      processStream_ok res.pages.flatten [] sn res.flushes.flatten hstream
    rw [runStore_eq_upsertAll, runStore_eq_upsertAll]
    exact upsertAll_idem docs res.flushes.flatten hnd
  · intro docs p tl hnd
    have hndp : (p.map Record.cve_id).Nodup := by
      rw [List.map_append] at hnd
      exact hnd.of_append_left
    rw [upsertAll_append (upsertAll docs p) p tl, upsertAll_append docs p tl,
      upsertAll_idem docs p hndp]

theorem c7_witness :
    runStore (runStore [] dupRes) dupRes = runStore [] dupRes ∧
    upsertAll (upsertAll [] [⟨"CVE-5", "first", "Unknown", "Unknown", "Unknown"⟩])
        ([⟨"CVE-5", "first", "Unknown", "Unknown", "Unknown"⟩] ++
         [⟨"CVE-6", "x", "Unknown", "Unknown", "y"⟩]) =
      upsertAll [] ([⟨"CVE-5", "first", "Unknown", "Unknown", "Unknown"⟩] ++
         [⟨"CVE-6", "x", "Unknown", "Unknown", "y"⟩]) :=
  ⟨c7_rerun_idempotent.1 dupFeed [] dupRes (by rfl),
   c7_rerun_idempotent.2 []
     [⟨"CVE-5", "first", "Unknown", "Unknown", "Unknown"⟩]
     [⟨"CVE-6", "x", "Unknown", "Unknown", "y"⟩] (by decide)⟩

/-- C8.  If the first page succeeds and its non-empty batch is flushed,
and the next fetch — issued with the loop cursor at offset 200 — returns a
non-200 status, then the aborted run has flushed exactly that first
batch, stopped with `start_index` at 200, and every record of the first
page's batch is present in storage after the run (nothing is rolled
back). -/
theorem c8_first_page_flush_survives_abort (feed : Nat → FetchOutcome)
    (lmd : Option String) (body : PageBody) (items : List Item) (t : Nat)
    (seen1 : List String) (batch0 : List Record) (s2 : Nat)
    (ob2 : Option PageBody)
    (h0 : feed 0 = .resp 200 (some body))
    (ht : body.totalResults = some t)
    (htt : RESULTS_PER_PAGE < t)
    (hv : body.vulnerabilities = some items)
    (hp : processStream [] items = .ok (seen1, batch0))
    (hne : ¬ batch0 = [])
    (h1 : feed 1 = .resp s2 ob2)
    (hs2 : ¬ s2 = 200) :
    ∃ res, fetch_and_store_cves feed lmd = .ok res ∧
      res.flushes = [batch0] ∧
      res.failed = true ∧
      res.finalStartIndex = RESULTS_PER_PAGE ∧
      res.requests.length = 2 ∧
      (∀ (docs : List Record) (u : Record), u ∈ batch0 →
        findById (runStore docs res) u.cve_id = some u) := by
  have hib : iterBody feed (mkParams lmd) ⟨[], [], [], [], 0, none⟩ =
      .ok (.cont ⟨[mkParams lmd], [items], [batch0], seen1,
                  RESULTS_PER_PAGE, some t⟩) := by
    simp [iterBody, h0, ht, hv, hp, hne, exc_ok_bind, exc_pure]
  obtain ⟨t', rfl⟩ : ∃ t', t = t' + 1 := ⟨t - 1, by omega⟩
  have hib2 : iterBody feed (mkParams lmd)
      ⟨[mkParams lmd], [items], [batch0], seen1, RESULTS_PER_PAGE, some (t' + 1)⟩ =
      .ok (.brk ⟨[mkParams lmd, mkParams lmd], [items], [batch0], seen1,
                 RESULTS_PER_PAGE, some (t' + 1)⟩) := by
    simp [iterBody, h1, hs2]
  have hloop : loopF feed (mkParams lmd) (t' + 1) (t' + 1)
      ⟨[mkParams lmd], [items], [batch0], seen1, RESULTS_PER_PAGE, some (t' + 1)⟩ =
      .ok ⟨[mkParams lmd, mkParams lmd], [items], [batch0], some (t' + 1),
           RESULTS_PER_PAGE, true, false⟩ := by
    simp only [loopF]
    rw [if_pos (by simpa using htt), hib2, exc_ok_bind]
    rfl
  refine ⟨⟨[mkParams lmd, mkParams lmd], [items], [batch0], some (t' + 1),
           RESULTS_PER_PAGE, true, false⟩, ?_, rfl, rfl, rfl, rfl, ?_⟩
  · show (iterBody feed (mkParams lmd) ⟨[], [], [], [], 0, none⟩ >>= fun out =>
      match out with
      | .brk st => Except.ok (finishRun st true false)
      | .cont st =>
        match st.totalResults with
        | some t => loopF feed (mkParams lmd) t t st
        | none => Except.ok (finishRun st false false)) = _
    rw [hib, exc_ok_bind]
    exact hloop
  · intro docs u hu
    rw [runStore_eq_upsertAll]
    have hnd : (batch0.map Record.cve_id).Nodup :=
      (processStream_ok items [] seen1 batch0 hp).2.1
    have hfind := findById_upsertAll_mem batch0 docs u hnd hu
    simpa [List.append_nil] using hfind

/-- A feed whose first page (reporting 450 total results) succeeds with
one item and whose second fetch fails with HTTP 500. -/
def abortFeed : Nat → FetchOutcome := fun n =>
  if n = 0 then
    .resp 200 (some ⟨some 450,
      some [⟨some ⟨some (.vstr "CVE-8"), none, none, none, none⟩⟩]⟩)
  else .resp 500 none

theorem c8_witness :
    ∃ res, fetch_and_store_cves abortFeed none = .ok res ∧
      res.flushes = [[⟨"CVE-8", "Unknown", "Unknown", "Unknown", "Unknown"⟩]] ∧
      res.failed = true ∧
      res.finalStartIndex = RESULTS_PER_PAGE ∧
      res.requests.length = 2 ∧
      (∀ (docs : List Record) (u : Record),
        u ∈ [(⟨"CVE-8", "Unknown", "Unknown", "Unknown", "Unknown"⟩ : Record)] →
        findById (runStore docs res) u.cve_id = some u) :=
  c8_first_page_flush_survives_abort abortFeed none
    ⟨some 450, some [⟨some ⟨some (.vstr "CVE-8"), none, none, none, none⟩⟩]⟩
    [⟨some ⟨some (.vstr "CVE-8"), none, none, none, none⟩⟩] 450 ["CVE-8"]
    [⟨"CVE-8", "Unknown", "Unknown", "Unknown", "Unknown"⟩] 500 none
    (by rfl) (by rfl) (by decide) (by rfl) (by rfl) (by decide) (by rfl) (by decide)
